import Mathlib

/-!
A shallow embedding of the `maybe_box` crate (`src/lib.rs`).

The crate provides `MaybeBox<T>`: a container that is exactly one machine
word (`usize`) wide.  At construction it compares `size_of::<T>()` with
`size_of::<usize>()`; if the value fits it is stored inline in the word,
otherwise it is moved into a heap allocation (`Box::new`) and the word holds
the pointer.  Every operation re-derives the same size comparison.

Embedding choices:
* Type sizes are explicit `Nat` parameters: `szT` stands for
  `mem::size_of::<T>()` and `szW` for `mem::size_of::<usize>()`.  The Rust
  comparison `size_of::<T>() <= size_of::<usize>()` becomes `szT ≤ szW`.
* The word of storage is a `Data T`: either the inline bits of a `T`
  (`Data.inl`) or a heap address (`Data.ptr`).  Reading the word with the
  wrong interpretation (type confusion, which in Rust would reinterpret
  garbage bits) is modelled as `Option.none`.
* The heap is an explicit association list from addresses to values,
  threaded through every operation together with counters for heap
  allocations, heap frees, and runs of `T`'s destructor.  `Box::new`
  allocates a fresh address; moving out of a `Box` (`*b`) looks the value
  up and frees the entry; dropping a value of type `T` bumps `dropCount`.
* `mem::forget(self)` is modelled by simply not running the `Drop` logic.
-/

namespace MaybeBoxModel

/-- The side-effect state threaded through the operations: the heap (an
association list from addresses to stored values), the next fresh address,
and counters observing heap allocations, heap frees, and invocations of
`T`'s destructor. -/
structure St (T : Type) where
  heap : List (Nat × T)
  nextAddr : Nat
  allocCount : Nat
  freeCount : Nat
  dropCount : Nat
  deriving DecidableEq

/-- The empty starting state: no live allocations, all counters zero. -/
def emptySt (T : Type) : St T := ⟨[], 0, 0, 0, 0⟩

/-- Look an address up in the heap (first entry wins, entries are pushed at
the front). -/
def heapLookup {T : Type} : List (Nat × T) → Nat → Option T
  | [], _ => none
  | (a, t) :: rest, x => if a = x then some t else heapLookup rest x

/-- Remove the first heap entry with the given address (freeing it). -/
def heapErase {T : Type} : List (Nat × T) → Nat → List (Nat × T)
  | [], _ => []
  | (a, t) :: rest, x => if a = x then rest else (a, t) :: heapErase rest x

/-- The contents of the single word of storage in a `MaybeBox<T>`,
together with its current interpretation: either the raw bits of an inline
`T`, or the address of a heap allocation holding a `T`.  In the Rust source
this is an untyped `data: usize` field; the implicit discriminant is the
compile-time size comparison. -/
inductive Data (T : Type) where
  | inl (t : T)
  | ptr (addr : Nat)
  deriving DecidableEq

/-- `MaybeBox<T>` from `src/lib.rs`: one word of storage (`data: usize`)
plus a zero-sized `PhantomData<T>` marker carrying no runtime bits. -/
structure MaybeBox (T : Type) where
  data : Data T
  deriving DecidableEq

/-- `Unpacked<T>` from `src/lib.rs`: a `T` stored inline, or a `T` still
inside its heap allocation (`Box<T>`, modelled as the owned address). -/
inductive Unpacked (T : Type) where
  | inline (t : T)
  | boxed (addr : Nat)
  deriving DecidableEq

/-- Whether an `Unpacked<T>` is the `Inline` case. -/
def Unpacked.isInlineCase {T : Type} : Unpacked T → Bool
  | .inline _ => true
  | .boxed _ => false

/-- The logical value carried by an `Unpacked<T>`: the value itself in the
`Inline` case, the value behind the owned allocation in the `Boxed` case. -/
def Unpacked.carried {T : Type} : Unpacked T → List (Nat × T) → Option T
  | .inline t, _ => some t
  | .boxed a, heap => heapLookup heap a

/-- Running `T`'s destructor on an owned value (a `let _ : T = ...` binding
going dead, or a caller's local going out of scope): one more destructor
run is observed. -/
def dropValue {T : Type} (_t : T) (st : St T) : St T :=
  { st with dropCount := st.dropCount + 1 }

/-- `MaybeBox::new` (src/lib.rs lines 75-88): compare `size_of::<T>()`
with `size_of::<usize>()`; if the value fits, write its bits into the word
(`new_inline`), otherwise `Box::new` it and store the pointer
(`new_boxed`). -/
def MaybeBox.new {T : Type} (szT szW : Nat) (t : T) (st : St T) :
    MaybeBox T × St T :=
  if szT ≤ szW then
    (⟨Data.inl t⟩, st)
  else
    (⟨Data.ptr st.nextAddr⟩,
      { st with
          heap := (st.nextAddr, t) :: st.heap
          nextAddr := st.nextAddr + 1
          allocCount := st.allocCount + 1 })

/-- `MaybeBox::get_inner` (src/lib.rs lines 115-122): re-derive the size
comparison; inline case reads the word as a `T` (`get_inline`), boxed case
reads the word as a `Box<T>` and moves the value out of it (`*get_boxed`),
which frees the allocation.  Reading the word under the wrong
interpretation, or through a dangling pointer, is undefined behaviour,
modelled as `none`. -/
def MaybeBox.get_inner {T : Type} (szT szW : Nat) (b : MaybeBox T)
    (st : St T) : Option (T × St T) :=
  if szT ≤ szW then
    match b.data with
    | Data.inl t => some (t, st)
    | Data.ptr _ => none
  else
    match b.data with
    | Data.inl _ => none
    | Data.ptr a =>
      match heapLookup st.heap a with
      | some t =>
        some (t, { st with
                     heap := heapErase st.heap a
                     freeCount := st.freeCount + 1 })
      | none => none

/-- `MaybeBox::into_inner` (src/lib.rs lines 91-95): `get_inner` followed
by `mem::forget(self)`, so the container's own `Drop` logic never runs;
ownership of the returned `T` passes to the caller. -/
def MaybeBox.into_inner {T : Type} (szT szW : Nat) (b : MaybeBox T)
    (st : St T) : Option (T × St T) :=
  MaybeBox.get_inner szT szW b st

/-- `MaybeBox::unpack` (src/lib.rs lines 102-113): re-derive the size
comparison; inline case yields `Unpacked::Inline` with the value read from
the word, boxed case yields `Unpacked::Boxed` carrying the existing `Box`
(the allocation is kept, nothing is freed).  Ends with
`mem::forget(self)`. -/
def MaybeBox.unpack {T : Type} (szT szW : Nat) (b : MaybeBox T)
    (st : St T) : Option (Unpacked T × St T) :=
  if szT ≤ szW then
    match b.data with
    | Data.inl t => some (Unpacked.inline t, st)
    | Data.ptr _ => none
  else
    match b.data with
    | Data.inl _ => none
    | Data.ptr a => some (Unpacked.boxed a, st)

/-- `impl Drop for MaybeBox` (src/lib.rs lines 125-129): `let _ : T =
self.get_inner();` — read the value out (freeing the allocation in the
boxed case) and let the binding die, running `T`'s destructor once. -/
def MaybeBox.dropSelf {T : Type} (szT szW : Nat) (b : MaybeBox T)
    (st : St T) : Option (St T) :=
  (MaybeBox.get_inner szT szW b st).map fun p => dropValue p.1 p.2

/-- Dropping an `Unpacked<T>` owned by the caller: the `Inline` case drops
the `T` directly; the `Boxed` case drops the `Box<T>`, which runs `T`'s
destructor on the heap value and then frees the allocation. -/
def Unpacked.dropSelf {T : Type} (u : Unpacked T) (st : St T) :
    Option (St T) :=
  match u with
  | .inline t => some (dropValue t st)
  | .boxed a =>
    match heapLookup st.heap a with
    | some t =>
      some (dropValue t
        { st with
            heap := heapErase st.heap a
            freeCount := st.freeCount + 1 })
    | none => none

/-- `impl From<T> for MaybeBox<T>` (src/lib.rs lines 131-135): the body is
exactly `MaybeBox::new(t)`. -/
def MaybeBox.from_val {T : Type} (szT szW : Nat) (t : T) (st : St T) :
    MaybeBox T × St T :=
  MaybeBox.new szT szW t st

/-- `impl Deref for MaybeBox` (src/lib.rs lines 137-148): shared read of
the contained value; inline case reinterprets the word as a `&T`, boxed
case follows the stored pointer.  No state is changed. -/
def MaybeBox.deref {T : Type} (szT szW : Nat) (b : MaybeBox T)
    (st : St T) : Option T :=
  if szT ≤ szW then
    match b.data with
    | Data.inl t => some t
    | Data.ptr _ => none
  else
    match b.data with
    | Data.inl _ => none
    | Data.ptr a => heapLookup st.heap a

/-- The equality comparison from src/lib.rs lines 168-180: dereference
both containers and compare the contained values (`*l == *r`); the raw
words are never compared. -/
def MaybeBox.beqVals {T : Type} [DecidableEq T] (szT szW : Nat)
    (b1 b2 : MaybeBox T) (st : St T) : Option Bool :=
  match MaybeBox.deref szT szW b1 st, MaybeBox.deref szT szW b2 st with
  | some l, some r => some (decide (l = r))
  | _, _ => none

/-! ### Struct layout model

`MaybeBox<T>` is declared as `struct MaybeBox<T> { data: usize, _ph:
PhantomData<T> }`.  Its size is determined by Rust struct layout: fields
are placed at offsets rounded up to their alignment, and the struct size
is the end offset rounded up to the struct's alignment (the maximum field
alignment).  `usize` has size and alignment one word; `PhantomData<T>` has
size 0 and alignment 1 for every `T`. -/

/-- A field's size and alignment in bytes. -/
structure FieldLayout where
  size : Nat
  align : Nat
  deriving DecidableEq

/-- Round `n` up to the next multiple of the alignment `a`. -/
def alignUp (n a : Nat) : Nat :=
  if n % a = 0 then n else n + (a - n % a)

/-- End offset after laying fields out in order from a starting offset. -/
def structEnd : Nat → List FieldLayout → Nat
  | off, [] => off
  | off, f :: rest => structEnd (alignUp off f.align + f.size) rest

/-- The alignment of a struct: the maximum alignment of its fields
(at least 1). -/
def structAlign : List FieldLayout → Nat
  | [] => 1
  | f :: rest => max f.align (structAlign rest)

/-- The size of a struct with the given fields: the end offset rounded up
to the struct alignment. -/
def sizeOfStruct (fs : List FieldLayout) : Nat :=
  alignUp (structEnd 0 fs) (structAlign fs)

/-- The `data: usize` field: one word of size and alignment `szW`. -/
def usizeField (szW : Nat) : FieldLayout := ⟨szW, szW⟩

/-- The `_ph: PhantomData<T>` field: zero-sized with alignment 1,
independent of `T`. -/
def phantomField : FieldLayout := ⟨0, 1⟩

/-- The fields of `struct MaybeBox<T>`, in declaration order. -/
def maybeBoxFields (szW : Nat) : List FieldLayout :=
  [usizeField szW, phantomField]

/-- `size_of::<MaybeBox<T>>()` for word size `szW` (independent of `T`,
since `PhantomData<T>` contributes no bytes for any `T`). -/
def sizeOfMaybeBox (szW : Nat) : Nat :=
  sizeOfStruct (maybeBoxFields szW)

/-- `size_of::<Box<u32>>()`: a `Box` of a sized target is a single thin
pointer, so its size is one word. -/
def sizeOfBoxU32 (szW : Nat) : Nat := szW

/-- Helper: the layout computation yields exactly one word. -/
theorem sizeOfMaybeBox_eq (szW : Nat) : sizeOfMaybeBox szW = szW := by
  cases szW with
  | zero => rfl
  | succ n =>
    simp [sizeOfMaybeBox, sizeOfStruct, maybeBoxFields, structEnd,
      structAlign, usizeField, phantomField, alignUp, Nat.mod_one,
      Nat.mod_self, Nat.max_eq_left (Nat.succ_le_succ (Nat.zero_le n))]

/-! ### Whole-lifecycle scenarios

Each scenario constructs a `MaybeBox` with `new` and then follows one of
the three lifecycles from the source: consume with `into_inner` (the
caller's returned value later goes out of scope), consume with `unpack`
(the caller's `Unpacked` value later goes out of scope), or never consume
(the container's own `Drop` impl runs at scope exit). -/

/-- Construct with `new`, consume with `into_inner`, then the caller's
returned `T` goes out of scope. -/
def scenarioIntoInner {T : Type} (szT szW : Nat) (v : T) (st0 : St T) :
    Option (St T) :=
  match MaybeBox.into_inner szT szW (MaybeBox.new szT szW v st0).1
      (MaybeBox.new szT szW v st0).2 with
  | some (t, st) => some (dropValue t st)
  | none => none

/-- Construct with `new`, consume with `unpack`, then the caller's
`Unpacked<T>` goes out of scope. -/
def scenarioUnpack {T : Type} (szT szW : Nat) (v : T) (st0 : St T) :
    Option (St T) :=
  match MaybeBox.unpack szT szW (MaybeBox.new szT szW v st0).1
      (MaybeBox.new szT szW v st0).2 with
  | some (u, st) => Unpacked.dropSelf u st
  | none => none

/-- Construct with `new` and never consume: the container's `Drop` impl
runs at scope exit. -/
def scenarioNoConsume {T : Type} (szT szW : Nat) (v : T) (st0 : St T) :
    Option (St T) :=
  MaybeBox.dropSelf szT szW (MaybeBox.new szT szW v st0).1
    (MaybeBox.new szT szW v st0).2

/-! ### Claim theorems -/

/-- C1: for every value `v` (of a type of any size `szT`, on any word size
`szW`), `into_inner(new(v))` returns `v`, covering both the inline
representation (`szT ≤ szW`) and the boxed representation (`szT > szW`). -/
theorem into_inner_new_roundtrip {T : Type} (szT szW : Nat) (v : T)
    (st0 : St T) :
    (MaybeBox.into_inner szT szW (MaybeBox.new szT szW v st0).1
      (MaybeBox.new szT szW v st0).2).map Prod.fst = some v := by
  by_cases h : szT ≤ szW <;>
    simp [MaybeBox.new, MaybeBox.into_inner, MaybeBox.get_inner,
      heapLookup, h]

/-- C2: the size of `MaybeBox<T>` (field `data: usize` followed by the
zero-sized `PhantomData<T>`, laid out by the struct layout rules) equals
the word size for every word size, independently of `T`. -/
theorem maybeBox_size_invariant (szW : Nat) : sizeOfMaybeBox szW = szW :=
  sizeOfMaybeBox_eq szW

/-- C3: `T`'s destructor runs exactly once in every lifecycle: consuming
with `into_inner` and dropping the returned value, consuming with `unpack`
and dropping the unpacked value, or never consuming and letting the
container's own `Drop` impl run. -/
theorem drop_exactly_once {T : Type} (szT szW : Nat) (v : T)
    (st0 : St T) :
    (scenarioIntoInner szT szW v st0).map St.dropCount =
      some (st0.dropCount + 1) ∧
    (scenarioUnpack szT szW v st0).map St.dropCount =
      some (st0.dropCount + 1) ∧
    (scenarioNoConsume szT szW v st0).map St.dropCount =
      some (st0.dropCount + 1) := by
  by_cases h : szT ≤ szW <;>
    simp [scenarioIntoInner, scenarioUnpack, scenarioNoConsume,
      MaybeBox.new, MaybeBox.into_inner, MaybeBox.get_inner,
      MaybeBox.unpack, MaybeBox.dropSelf, Unpacked.dropSelf, dropValue,
      heapLookup, h]

/-- C4: `unpack(new(v))` yields the `Inline` case exactly when
`szT ≤ szW` and the `Boxed` case otherwise, and in both cases the carried
logical value equals `v`. -/
theorem unpack_new_correct {T : Type} (szT szW : Nat) (v : T)
    (st0 : St T) :
    ∃ u st1,
      MaybeBox.unpack szT szW (MaybeBox.new szT szW v st0).1
        (MaybeBox.new szT szW v st0).2 = some (u, st1) ∧
      u.isInlineCase = decide (szT ≤ szW) ∧
      u.carried st1.heap = some v := by
  by_cases h : szT ≤ szW
  · exact ⟨Unpacked.inline v, st0,
      by simp [MaybeBox.new, MaybeBox.unpack, h],
      by simp [Unpacked.isInlineCase, h], rfl⟩
  · refine ⟨Unpacked.boxed st0.nextAddr,
      { st0 with
          heap := (st0.nextAddr, v) :: st0.heap
          nextAddr := st0.nextAddr + 1
          allocCount := st0.allocCount + 1 },
      by simp [MaybeBox.new, MaybeBox.unpack, h],
      by simp [Unpacked.isInlineCase, h],
      by simp [Unpacked.carried, heapLookup]⟩

/-- C5 counterexample: for `T = Box<u32>` (a thin pointer, so
`size_of::<T>()` equals the word size) holding `123`, construction does
NOT take the boxed path: the word stores the value inline, no heap
allocation happens, and `unpack` yields the `Inline` case — refuting the
claim that the boxed path is taken. -/
theorem box_u32_not_boxed_path :
    (MaybeBox.new (sizeOfBoxU32 8) 8 (123 : Nat) (emptySt Nat)).1.data =
      Data.inl 123 ∧
    (MaybeBox.new (sizeOfBoxU32 8) 8 (123 : Nat)
      (emptySt Nat)).2.allocCount = 0 ∧
    (MaybeBox.unpack (sizeOfBoxU32 8) 8
      (MaybeBox.new (sizeOfBoxU32 8) 8 (123 : Nat) (emptySt Nat)).1
      (MaybeBox.new (sizeOfBoxU32 8) 8 (123 : Nat) (emptySt Nat)).2).map
        (fun p => p.1.isInlineCase) = some true := by
  decide

/-- C5 amended: for `T = Box<u32>` holding `123`, construction takes the
INLINE path (a `Box` is exactly word-sized), and the value round-trips
through `new` and `into_inner` to the same value. -/
theorem box_u32_inline_roundtrip :
    (MaybeBox.into_inner (sizeOfBoxU32 8) 8
      (MaybeBox.new (sizeOfBoxU32 8) 8 (123 : Nat) (emptySt Nat)).1
      (MaybeBox.new (sizeOfBoxU32 8) 8 (123 : Nat) (emptySt Nat)).2).map
        Prod.fst = some 123 ∧
    (MaybeBox.new (sizeOfBoxU32 8) 8 (123 : Nat) (emptySt Nat)).1.data =
      Data.inl 123 := by
  decide

/-- C6: `unpack` and `into_inner` agree on the logical value (collapsing
`Inline(t)` to `t` and `Boxed(b)` to the value behind `b` gives exactly
what `into_inner` returns, including agreement on failure), and `unpack`
leaves the state — in particular any existing heap allocation — fully
intact. -/
theorem unpack_into_inner_agree {T : Type} (szT szW : Nat)
    (b : MaybeBox T) (st : St T) :
    ((MaybeBox.unpack szT szW b st).bind
        fun p => p.1.carried p.2.heap) =
      (MaybeBox.into_inner szT szW b st).map Prod.fst ∧
    (MaybeBox.unpack szT szW b st).map Prod.snd =
      (MaybeBox.unpack szT szW b st).map (fun _ => st) := by
  by_cases h : szT ≤ szW <;> cases hb : b.data <;>
    simp [MaybeBox.unpack, MaybeBox.into_inner, MaybeBox.get_inner,
      Unpacked.carried, h, hb]
  cases heapLookup st.heap _ <;> simp

/-- C7: two containers built over values `v1` and `v2` compare equal
exactly when `v1 = v2`, for every representation; and in the boxed case
the two raw words are different addresses (so equality cannot be reading
the word bits — it reads the contained values). -/
theorem eq_iff_values {T : Type} [DecidableEq T] (szT szW : Nat)
    (v1 v2 : T) (st0 : St T) :
    MaybeBox.beqVals szT szW (MaybeBox.new szT szW v1 st0).1
      (MaybeBox.new szT szW v2 (MaybeBox.new szT szW v1 st0).2).1
      (MaybeBox.new szT szW v2 (MaybeBox.new szT szW v1 st0).2).2 =
      some (decide (v1 = v2)) ∧
    (¬ szT ≤ szW →
      (MaybeBox.new szT szW v1 st0).1.data ≠
        (MaybeBox.new szT szW v2 (MaybeBox.new szT szW v1 st0).2).1.data) := by
  constructor
  · by_cases h : szT ≤ szW <;>
      simp [MaybeBox.new, MaybeBox.beqVals, MaybeBox.deref, heapLookup, h]
  · intro h
    simp only [MaybeBox.new, if_neg h, ne_eq, MaybeBox.mk.injEq,
      Data.ptr.injEq]
    omega

/-- Witness for the `eq_iff_values` hypothesis, at a boxed instantiation:
two word-sized-16 containers over the equal value `7` on an 8-byte word
compare equal while their raw words differ. -/
theorem eq_iff_values_w :
    MaybeBox.beqVals 16 8 (MaybeBox.new 16 8 (7 : Nat) (emptySt Nat)).1
      (MaybeBox.new 16 8 7 (MaybeBox.new 16 8 7 (emptySt Nat)).2).1
      (MaybeBox.new 16 8 7 (MaybeBox.new 16 8 7 (emptySt Nat)).2).2 =
      some true ∧
    (MaybeBox.new 16 8 (7 : Nat) (emptySt Nat)).1.data ≠
      (MaybeBox.new 16 8 7 (MaybeBox.new 16 8 7 (emptySt Nat)).2).1.data :=
  ⟨(eq_iff_values 16 8 7 7 (emptySt Nat)).1.trans (by decide),
    (eq_iff_values 16 8 7 7 (emptySt Nat)).2 (by decide)⟩

/-- C8: for a zero-sized `T` (`size_of::<T>() = 0`), `new` takes the
inline path (the word stores the value, the state is untouched), and
destruction performs no heap allocation, no heap free, and no heap
mutation — only the one destructor run. -/
theorem zst_inline_no_heap {T : Type} (szW : Nat) (v : T) (st0 : St T) :
    (MaybeBox.new 0 szW v st0).1.data = Data.inl v ∧
    (MaybeBox.new 0 szW v st0).2 = st0 ∧
    (MaybeBox.dropSelf 0 szW (MaybeBox.new 0 szW v st0).1
      (MaybeBox.new 0 szW v st0).2).map St.allocCount =
      some st0.allocCount ∧
    (MaybeBox.dropSelf 0 szW (MaybeBox.new 0 szW v st0).1
      (MaybeBox.new 0 szW v st0).2).map St.freeCount =
      some st0.freeCount ∧
    (MaybeBox.dropSelf 0 szW (MaybeBox.new 0 szW v st0).1
      (MaybeBox.new 0 szW v st0).2).map St.heap = some st0.heap := by
  simp [MaybeBox.new, MaybeBox.dropSelf, MaybeBox.get_inner, dropValue,
    Nat.zero_le]

/-- C9: the `From<T>` conversion is definitionally `MaybeBox::new`: on
every input it constructs exactly the same container and state. -/
theorem from_val_eq_new {T : Type} (szT szW : Nat) (t : T) (st : St T) :
    MaybeBox.from_val szT szW t st = MaybeBox.new szT szW t st := rfl

/-- C10: a nested `MaybeBox<MaybeBox<T>>` always takes the inline path:
the inner container is exactly word-sized (by the layout computation), so
the outer `new` stores it inline and performs no heap allocation. -/
theorem nested_always_inline {T : Type} (szW : Nat)
    (inner : MaybeBox T) (st0 : St (MaybeBox T)) :
    (MaybeBox.new (sizeOfMaybeBox szW) szW inner st0).1.data =
      Data.inl inner ∧
    (MaybeBox.new (sizeOfMaybeBox szW) szW inner st0).2 = st0 := by
  rw [sizeOfMaybeBox_eq]
  constructor <;> simp [MaybeBox.new]

end MaybeBoxModel
